import Mathlib

/-!
Verification of the QA-dashboard report-aggregation engine
(`src/dashboard/src/dashboard.py`).

The Python functions are shallowly embedded as Lean definitions:
strings are manipulated through their character lists, machine
arithmetic is modelled on `Nat`/`Int`, the IEEE-double expression
`100.0 * part2 / total` together with its zero-decimal formatting is
modelled exactly as round-half-to-even of the rational
`100 * part2 / total`, implemented on numerator and denominator, and
fallible code (file parsing, dictionary key access) returns
`Option`/`Except`.
-/

/-- Characters stripped by Python's `str.strip` / `str.rstrip`
(whitespace). -/
def isPySpace (c : Char) : Bool :=
  decide (c = ' ') || decide (c = '\t') || decide (c = '\n') ||
  decide (c = '\r') || decide (c = '\x0b') || decide (c = '\x0c')

/-- Python `line.rstrip()`: drop trailing whitespace. -/
def rstrip (s : String) : String :=
  String.mk ((s.data.reverse.dropWhile isPySpace).reverse)

/-- Python `line.strip()`: drop leading and trailing whitespace. -/
def strip (s : String) : String :=
  String.mk (((s.data.dropWhile isPySpace).reverse.dropWhile isPySpace).reverse)

/-- Python `s.endswith(suf)`. -/
def endswith (s suf : String) : Bool :=
  decide (suf.data <:+ s.data)

/-- Python `s.split(" ")`: split at every single space character,
keeping empty fragments. -/
def splitOnSpace (cs : List Char) : List (List Char) :=
  match cs with
  | [] => [[]]
  | c :: rest =>
    let r := splitOnSpace rest
    if c = ' ' then [] :: r
    else
      match r with
      | [] => [[c]]
      | h :: t => (c :: h) :: t

/-- Python `int(s)`: strip whitespace, then an optional sign followed by
at least one decimal digit; any other shape raises `ValueError`,
modelled as `none`. -/
def pyIntOfString (s : String) : Option ℤ :=
  let digitsVal : List Char → ℤ :=
    fun cs => (cs.foldl (fun a c => 10 * a + (c.toNat - 48)) 0 : ℕ)
  match (strip s).data with
  | [] => none
  | '-' :: rest =>
    if rest ≠ [] ∧ rest.all Char.isDigit then some (-(digitsVal rest)) else none
  | '+' :: rest =>
    if rest ≠ [] ∧ rest.all Char.isDigit then some (digitsVal rest) else none
  | cs =>
    if cs.all Char.isDigit then some (digitsVal cs) else none

/-- Python dictionary update `d[k] = v` on an insertion-ordered
association list: an existing key keeps its position and gets the new
value, a new key is appended at the end. -/
def dictInsert {β : Type} (k : String) (v : β) (d : List (String × β)) :
    List (String × β) :=
  if d.any (fun e => decide (e.1 = k)) then
    d.map (fun e => if e.1 = k then (k, v) else e)
  else
    d ++ [(k, v)]

/-- Round the fraction `n / d` (for `d > 0`) to the nearest natural
number, ties to even: this is exactly what Python's zero-decimal float
formatting does to the value `n / d`. -/
def roundHalfToEven (n d : ℕ) : ℕ :=
  let q := n / d
  let r := n % d
  if 2 * r < d then q
  else if d < 2 * r then q + 1
  else if q % 2 = 0 then q else q + 1

/-- Embedding of `percentage(part1, part2)` (dashboard.py lines
170-176): `total = part1 + part2`; return `"0"` if `total == 0`, else
the string formatting of `100.0 * part2 / total` with zero decimal
places. -/
def percentage (part1 part2 : ℕ) : String :=
  let total := part1 + part2
  if total = 0 then "0"
  else Nat.repr (roundHalfToEven (100 * part2) total)

/-- Numeric value of the string produced by `percentage`; the call
sites `progress_bar_class(percentage(..))` and
`progress_bar_width(percentage(..))` apply Python `int()` to that
string, which recovers exactly this number. -/
def percentageVal (part1 part2 : ℕ) : ℕ :=
  let total := part1 + part2
  if total = 0 then 0
  else roundHalfToEven (100 * part2) total

/-- The spec's reading of the percentage contract: `percentage_spec
failCount passCount` is said to return the failure share, `100 *
failCount / (failCount + passCount)`, rounded to the nearest integer
and formatted with zero decimal places.  Stated separately from the
source-derived `percentage` so the two can be compared. -/
def percentage_spec (failCount passCount : ℕ) : String :=
  let total := failCount + passCount
  if total = 0 then "0"
  else Nat.repr (roundHalfToEven (100 * failCount) total)

/-- Embedding of `progress_bar_class(p)` (dashboard.py lines 153-161);
`p` is the integer produced by Python's `int()` conversion of the
argument. -/
def progress_bar_class (p : ℤ) : String :=
  if p < 10 then "progress-bar-danger"
  else if 90 < p then "progress-bar-success"
  else "progress-bar-warning"

/-- Embedding of `progress_bar_width(p)` (dashboard.py lines 164-167):
`15.0 + p * 0.85`, with the float constants modelled as exact
rationals. -/
def progress_bar_width (p : ℤ) : ℚ :=
  15 + (p : ℚ) * (85 / 100)

/-- Result record built by `parse_linter_results` (dashboard.py lines
204-211).  `files` is the insertion-ordered dictionary from filename to
pass verdict. -/
structure LineReport where
  files : List (String × Bool)
  total : ℕ
  passed : ℕ
  failed : ℕ
  passedPct : String
  failedPct : String
  progressBarClass : String
  progressBarWidth : ℚ

/-- Mutable loop state of `parse_linter_results` (dashboard.py lines
181-186): the current source-file cursor, the verdict dictionary and
the three counters. -/
structure ParseState where
  source : Option String
  files : List (String × Bool)
  passed : ℕ
  failed : ℕ
  total : ℕ

/-- Initial loop state: no cursor, empty dictionary, zero counters. -/
def initState : ParseState :=
  { source := none, files := [], passed := 0, failed := 0, total := 0 }

/-- Cursor update on a line ending in `.py` (dashboard.py line 192):
`source = line.strip()`. -/
def setSource (line : String) (st : ParseState) : ParseState :=
  { st with source := some (strip line) }

/-- Verdict update on a line ending in the pass marker (dashboard.py
lines 193-197): only when a cursor is set, increment `passed` and
`total` and record `True` for the cursor. -/
def recordPass (st : ParseState) : ParseState :=
  match st.source with
  | some s =>
    { st with passed := st.passed + 1, total := st.total + 1,
              files := dictInsert s true st.files }
  | none => st

/-- Verdict update on a line ending in the fail marker (dashboard.py
lines 198-202), symmetric to `recordPass`. -/
def recordFail (st : ParseState) : ParseState :=
  match st.source with
  | some s =>
    { st with failed := st.failed + 1, total := st.total + 1,
              files := dictInsert s false st.files }
  | none => st

/-- One iteration of the `parse_linter_results` loop (dashboard.py
lines 189-202): right-strip the line, then three independent suffix
checks, each applied to the state left by the previous one. -/
def processLine (st : ParseState) (rawLine : String) : ParseState :=
  let line := rstrip rawLine
  let st1 := if endswith line ".py" then setSource line st else st
  let st2 := if endswith line "    Pass" then recordPass st1 else st1
  if endswith line "    Fail" then recordFail st2 else st2

/-- Embedding of `parse_linter_results` (dashboard.py lines 179-211)
over the sequence of lines of the report file. -/
def parse_linter_results (lines : List String) : LineReport :=
  let st := lines.foldl processLine initState
  { files := st.files,
    total := st.total,
    passed := st.passed,
    failed := st.failed,
    passedPct := percentage st.failed st.passed,
    failedPct := percentage st.passed st.failed,
    progressBarClass := progress_bar_class (percentageVal st.failed st.passed : ℤ),
    progressBarWidth := progress_bar_width (percentageVal st.failed st.passed : ℤ) }

/-- Embedding of `update_overall_status` (dashboard.py lines 258-281)
restricted to its pure core: from the inventory's file count and the
two parsed reports, produce the overall status and the remark that the
function stores into the aggregate. -/
def update_overall_status (source_files : ℕ)
    (linter_checks docstyle_checks : LineReport) : Bool × String :=
  let remarks := ""
  let status := false
  let linter_checks_total := linter_checks.total
  let docstyle_checks_total := docstyle_checks.total
  if source_files = linter_checks_total ∧ source_files = docstyle_checks_total then
    if linter_checks.failed = 0 ∧ docstyle_checks.failed = 0 then
      (true, remarks)
    else (status, remarks)
  else
    let remarks := "not all source files are checked"
    let remarks :=
      if linter_checks_total ≠ docstyle_checks_total then
        remarks ++ ", linter checked " ++ Nat.repr linter_checks_total ++
          " files, but pydocstyle checked " ++ Nat.repr docstyle_checks_total ++ " files"
      else remarks
    (status, remarks)

/-- Result record of `get_source_files` (dashboard.py lines 252-255). -/
structure SourceFileInventory where
  count : ℕ
  filenames : List String
  line_counts : List (String × ℤ)
  total_lines : ℤ
deriving DecidableEq

/-- Embedding of `parse_line_count` (dashboard.py lines 224-231):
strip the line, split on single spaces into exactly a count and a
filename (any other shape raises, modelled as `none`), convert the
count with `int()` and drop a leading `./` from the filename. -/
def parse_line_count (line : String) : Option (ℤ × String) :=
  let cs := (strip line).data
  match splitOnSpace cs with
  | [cnt, fname] =>
    match pyIntOfString (String.mk cnt) with
    | some line_count =>
      match fname with
      | '.' :: '/' :: rest => some (line_count, String.mk rest)
      | _ => some (line_count, String.mk fname)
    | none => none
  | _ => none

/-- Reading loop of `get_source_files` (dashboard.py lines 244-250):
`count` is incremented for every line read, each line is parsed with
`parse_line_count`, and a parse failure aborts the whole function
(modelled as `none`). -/
def getSourceFilesAux : List String → SourceFileInventory → Option SourceFileInventory
  | [], inv => some inv
  | line :: rest, inv =>
    match parse_line_count line with
    | none => none
    | some (line_count, filename) =>
      getSourceFilesAux rest
        { count := inv.count + 1,
          filenames := inv.filenames ++ [filename],
          line_counts := dictInsert filename line_count inv.line_counts,
          total_lines := inv.total_lines + line_count }

/-- Embedding of `get_source_files` (dashboard.py lines 234-255).  The
shell pipeline built at lines 236-237 pipes the raw line-count report
through `head -n -1`, which removes its final line before the Python
loop reads the file; that removal is embedded as `dropLast` on the raw
report lines. -/
def get_source_files (wcReport : List String) : Option SourceFileInventory :=
  getSourceFilesAux wcReport.dropLast
    { count := 0, filenames := [], line_counts := [], total_lines := 0 }

/-- Raw CI job descriptor as consumed by `jobs_as_dict`: a JSON object
which optionally carries a `name` and a `color` entry. -/
structure RawJob where
  name : Option String
  color : Option String
deriving DecidableEq

/-- Generator loop of `jobs_as_dict`: descriptors without a `color` key
are filtered out; a kept descriptor is read with `job["name"]`, which
raises `KeyError` when the key is absent. -/
def jobsAsDictAux : List RawJob → List (String × String) →
    Except String (List (String × String))
  | [], acc => Except.ok acc
  | job :: rest, acc =>
    match job.color with
    | none => jobsAsDictAux rest acc
    | some c =>
      match job.name with
      | none => Except.error "KeyError: name"
      | some n => jobsAsDictAux rest (dictInsert n c acc)

/-- Embedding of `jobs_as_dict` (dashboard.py lines 409-411). -/
def jobs_as_dict (raw_jobs : List RawJob) : Except String (List (String × String)) :=
  jobsAsDictAux raw_jobs []

/-- Invariant of the `parse_linter_results` loop state: the verdict
counters add up and the dictionary holds at most one entry per counted
verdict. -/
def StInv (st : ParseState) : Prop :=
  st.total = st.passed + st.failed ∧ st.files.length ≤ st.total

/-- The percentage string is the decimal numeral of `percentageVal`. -/
theorem percentage_eq_repr (part1 part2 : ℕ) :
    percentage part1 part2 = Nat.repr (percentageVal part1 part2) := by
  unfold percentage percentageVal
  by_cases h : part1 + part2 = 0
  · simp only [h, if_pos]
    rfl
  · simp [h]

/-- A Python dictionary update grows the association list by at most
one entry. -/
theorem dictInsert_length {β : Type} (k : String) (v : β) (d : List (String × β)) :
    (dictInsert k v d).length ≤ d.length + 1 := by
  unfold dictInsert
  split_ifs
  · simp
  · simp

/-- The cursor update preserves the loop invariant. -/
theorem setSource_inv (line : String) (st : ParseState) (h : StInv st) :
    StInv (setSource line st) := h

/-- The pass update preserves the loop invariant. -/
theorem recordPass_inv (st : ParseState) (h : StInv st) : StInv (recordPass st) := by
  obtain ⟨h1, h2⟩ := h
  unfold recordPass
  rcases hs : st.source with _ | s
  · exact ⟨h1, h2⟩
  · refine ⟨by dsimp; omega, ?_⟩
    have := dictInsert_length s true st.files
    dsimp
    omega

/-- The fail update preserves the loop invariant. -/
theorem recordFail_inv (st : ParseState) (h : StInv st) : StInv (recordFail st) := by
  obtain ⟨h1, h2⟩ := h
  unfold recordFail
  rcases hs : st.source with _ | s
  · exact ⟨h1, h2⟩
  · refine ⟨by dsimp; omega, ?_⟩
    have := dictInsert_length s false st.files
    dsimp
    omega

/-- One loop iteration preserves the loop invariant. -/
theorem processLine_inv (st : ParseState) (l : String) (h : StInv st) :
    StInv (processLine st l) := by
  unfold processLine
  dsimp only
  split_ifs <;>
    first
      | exact recordFail_inv _ (recordPass_inv _ (setSource_inv _ _ h))
      | exact recordFail_inv _ (recordPass_inv _ h)
      | exact recordFail_inv _ (setSource_inv _ _ h)
      | exact recordFail_inv _ h
      | exact recordPass_inv _ (setSource_inv _ _ h)
      | exact recordPass_inv _ h
      | exact setSource_inv _ _ h
      | exact h

/-- The whole parsing loop preserves the loop invariant. -/
theorem foldl_inv (lines : List String) (st : ParseState) (h : StInv st) :
    StInv (lines.foldl processLine st) := by
  induction lines generalizing st with
  | nil => exact h
  | cons l rest ih => exact ih _ (processLine_inv st l h)

/-- The last element of a list is the last element of any of its
non-empty suffixes. -/
theorem getLast?_of_suffix {l t : List Char} {c : Char} (h : t <:+ l)
    (hc : t.getLast? = some c) : l.getLast? = some c := by
  obtain ⟨u, hu⟩ := h
  have ht : t ≠ [] := by
    intro h0
    rw [h0] at hc
    simp at hc
  rw [← hu, List.getLast?_append_of_ne_nil _ ht]
  exact hc

/-- A line classified as a pass or fail verdict cannot also be a
source-file marker: the marker suffix ends in a different character. -/
theorem verdict_not_py (s : String)
    (h : endswith s "    Pass" = true ∨ endswith s "    Fail" = true) :
    endswith s ".py" = false := by
  unfold endswith at h ⊢
  apply decide_eq_false
  intro hpy
  have hy : s.data.getLast? = some 'y' :=
    getLast?_of_suffix hpy (by decide)
  rcases h with h | h
  · have hs : s.data.getLast? = some 's' :=
      getLast?_of_suffix (of_decide_eq_true h) (by decide)
    rw [hy] at hs
    simp at hs
  · have hs : s.data.getLast? = some 'l' :=
      getLast?_of_suffix (of_decide_eq_true h) (by decide)
    rw [hy] at hs
    simp at hs

/-- A line that is not a source-file marker leaves the initial parse
state untouched: without a cursor, verdict lines are silently
ignored. -/
theorem processLine_skip (l : String) (hpy : endswith (rstrip l) ".py" = false) :
    processLine initState l = initState := by
  unfold processLine
  dsimp only
  rw [hpy]
  simp [recordPass, recordFail, initState]

/-- Any run of verdict lines at the start of the report leaves the
initial parse state untouched. -/
theorem foldl_skip (pre : List String)
    (h : ∀ l ∈ pre, endswith (rstrip l) "    Pass" = true ∨
      endswith (rstrip l) "    Fail" = true) :
    pre.foldl processLine initState = initState := by
  induction pre with
  | nil => rfl
  | cons l rest ih =>
    have h1 := h l (List.mem_cons_self l rest)
    rw [List.foldl_cons, processLine_skip l (verdict_not_py _ h1)]
    exact ih (fun x hx => h x (List.mem_cons_of_mem _ hx))

/-- Twice the numerator stays within one denominator of twice the
rounded value times the denominator: round half to even is a nearest
rounding. -/
theorem roundHalfToEven_bounds (n d : ℕ) (hd : 0 < d) :
    2 * n ≤ 2 * d * roundHalfToEven n d + d ∧
    2 * d * roundHalfToEven n d ≤ 2 * n + d := by
  unfold roundHalfToEven
  have h1 : d * (n / d) + n % d = n := Nat.div_add_mod n d
  have h2 : n % d < d := Nat.mod_lt _ hd
  set q := n / d with hq
  set r := n % d with hr
  dsimp only
  split_ifs with c1 c2 c3
  · constructor <;> nlinarith
  · constructor <;> nlinarith
  · constructor <;> nlinarith
  · constructor <;> nlinarith

/-- The generator of `jobs_as_dict` raises `KeyError` as soon as it
reaches a descriptor that has a status but no name, whatever has been
accumulated before. -/
theorem jobsAsDictAux_error (jobs : List RawJob) :
    (∃ j ∈ jobs, j.name = none ∧ j.color.isSome = true) →
    ∀ acc, jobsAsDictAux jobs acc = Except.error "KeyError: name" := by
  induction jobs with
  | nil =>
    intro h
    exact absurd h (by simp)
  | cons j rest ih =>
    intro h acc
    rcases hc : j.color with _ | c
    · have h2 : ∃ j0 ∈ rest, j0.name = none ∧ j0.color.isSome = true := by
        rcases h with ⟨j0, hm, hp⟩
        rcases List.mem_cons.mp hm with rfl | hm2
        · rw [hc] at hp
          simp at hp
        · exact ⟨j0, hm2, hp⟩
      simp only [jobsAsDictAux, hc]
      exact ih h2 acc
    · rcases hn : j.name with _ | n
      · simp [jobsAsDictAux, hc, hn]
      · have h2 : ∃ j0 ∈ rest, j0.name = none ∧ j0.color.isSome = true := by
          rcases h with ⟨j0, hm, hp⟩
          rcases List.mem_cons.mp hm with rfl | hm2
          · rw [hn] at hp
            exact absurd hp.1 (by simp)
          · exact ⟨j0, hm2, hp⟩
        simp only [jobsAsDictAux, hc, hn]
        exact ih h2 _

/-- Descriptors without a status color never influence the generator of
`jobs_as_dict`: removing them all beforehand leaves the result
unchanged, whatever has been accumulated so far. -/
theorem jobsAsDictAux_filter (jobs : List RawJob) :
    ∀ acc, jobsAsDictAux jobs acc =
      jobsAsDictAux (jobs.filter (fun j => j.color.isSome)) acc := by
  induction jobs with
  | nil => intro acc; rfl
  | cons j rest ih =>
    intro acc
    rcases hc : j.color with _ | c
    · have hp : (fun j : RawJob => j.color.isSome) j = false := by
        simp [hc]
      simp only [jobsAsDictAux, hc, List.filter_cons, hp, if_neg]
      exact ih acc
    · have hp : (fun j : RawJob => j.color.isSome) j = true := by
        simp [hc]
      rcases hn : j.name with _ | n
      · simp [jobsAsDictAux, hc, hn, List.filter_cons, hp]
      · simp only [jobsAsDictAux, hc, hn, List.filter_cons, hp, if_pos]
        exact ih _

/-- Claim C1: the overall status computed by `update_overall_status` is
true exactly when both reports' totals equal the inventory count and
both reports have zero failures; for inventory count 2 with two clean
two-file reports the result is `true` with an empty remark, and for
inventory count 3 with a three-file linter report and a two-file
docstyle report the result is `false` with a remark naming the
file-count mismatch and the two differing per-tool totals. -/
theorem update_overall_status_correct :
    (∀ (source_files : ℕ) (linter_checks docstyle_checks : LineReport),
        (update_overall_status source_files linter_checks docstyle_checks).1 = true ↔
          linter_checks.total = source_files ∧ docstyle_checks.total = source_files ∧
          linter_checks.failed = 0 ∧ docstyle_checks.failed = 0) ∧
    update_overall_status 2
        (parse_linter_results ["a.py", "x    Pass", "b.py", "y    Pass"])
        (parse_linter_results ["a.py", "x    Pass", "b.py", "y    Pass"]) = (true, "") ∧
    update_overall_status 3
        (parse_linter_results
          ["a.py", "x    Pass", "b.py", "y    Pass", "c.py", "z    Pass"])
        (parse_linter_results ["a.py", "x    Pass", "b.py", "y    Pass"]) =
      (false,
        "not all source files are checked, linter checked 3 files, but pydocstyle checked 2 files") := by
  refine ⟨?_, by decide, by decide⟩
  intro c l d
  unfold update_overall_status
  dsimp only
  split_ifs with h1 h2 <;> simp <;> omega

/-- Claim C2: `get_source_files` drops the trailing non-data summary
line of the line-count report (via the `head -n -1` stage of the very
command it builds); on the three report lines `10 ./a.py`, `5 ./b.py`
and a summary line it records two files with fifteen total lines, the
`./` prefix stripped from both filenames. -/
theorem get_source_files_drops_summary :
    get_source_files ["10 ./a.py", "5 ./b.py", "15 total"] =
      some { count := 2, filenames := ["a.py", "b.py"],
             line_counts := [("a.py", 10), ("b.py", 5)], total_lines := 15 } := by
  decide

/-- Claim C3, counterexample: `percentage` applied to a fail count of 1
and a pass count of 3 returns the pass share, not the failure share the
claim describes (`percentage_spec`). -/
theorem percentage_not_failure_share_cex :
    percentage 1 3 = "75" ∧ percentage_spec 1 3 = "25" ∧
    percentage 1 3 ≠ percentage_spec 1 3 := by
  decide

/-- Claim C3, amended: `percentage(part1, part2)` returns the share of
its second argument, `100 * part2 / (part1 + part2)`, rounded to the
nearest integer (ties to even) and formatted with zero decimal places;
the failure share described by the spec is therefore obtained by
passing the fail count as the second argument. -/
theorem percentage_second_share (part1 part2 : ℕ) :
    percentage part1 part2 = percentage_spec part2 part1 := by
  unfold percentage percentage_spec
  rw [Nat.add_comm part2 part1]

/-- Claim C3, amended, witness at part1 = 1, part2 = 3. -/
theorem percentage_second_share_witness :
    percentage 1 3 = percentage_spec 3 1 :=
  percentage_second_share 1 3

/-- Claim C4, counterexample: two pass verdicts under the same cursor
give a report with total 2 but a one-entry file dictionary, so
`total == len(files)` fails on this input. -/
theorem linter_invariant_cex :
    (parse_linter_results ["a.py", "foo    Pass", "bar    Pass"]).total = 2 ∧
    (parse_linter_results ["a.py", "foo    Pass", "bar    Pass"]).passed = 2 ∧
    (parse_linter_results ["a.py", "foo    Pass", "bar    Pass"]).failed = 0 ∧
    (parse_linter_results ["a.py", "foo    Pass", "bar    Pass"]).files.length = 1 ∧
    ¬ ((parse_linter_results ["a.py", "foo    Pass", "bar    Pass"]).total =
        (parse_linter_results ["a.py", "foo    Pass", "bar    Pass"]).files.length) := by
  decide

/-- Claim C4, amended: for every report produced by the line-report
parser, `total == passed + failed` holds, and the file dictionary has
at most `total` entries (a repeated verdict for the same cursor
overwrites its entry, so `len(files)` can fall short of `total`). -/
theorem linter_totals_invariant (lines : List String) :
    (parse_linter_results lines).total =
      (parse_linter_results lines).passed + (parse_linter_results lines).failed ∧
    (parse_linter_results lines).files.length ≤ (parse_linter_results lines).total := by
  have h := foldl_inv lines initState ⟨rfl, Nat.le_refl 0⟩
  exact ⟨h.1, h.2⟩

/-- Claim C5: verdict lines appearing before any source-file marker are
silently ignored; after any such prefix, a marker for `a.py`, a pass
verdict, a marker for `b.py` and a fail verdict yield total 2, one
pass, one fail, with `a.py` mapped to true and `b.py` to false. -/
theorem linter_ignores_leading_verdicts (pre : List String)
    (h : ∀ l ∈ pre, endswith (rstrip l) "    Pass" = true ∨
      endswith (rstrip l) "    Fail" = true) :
    ((parse_linter_results (pre ++ ["a.py", "foo    Pass", "b.py", "bar    Fail"])).total,
     (parse_linter_results (pre ++ ["a.py", "foo    Pass", "b.py", "bar    Fail"])).passed,
     (parse_linter_results (pre ++ ["a.py", "foo    Pass", "b.py", "bar    Fail"])).failed,
     (parse_linter_results (pre ++ ["a.py", "foo    Pass", "b.py", "bar    Fail"])).files) =
    (2, 1, 1, [("a.py", true), ("b.py", false)]) := by
  unfold parse_linter_results
  rw [List.foldl_append, foldl_skip pre h]
  decide

/-- Claim C5, witness: a pass and a fail verdict line before the first
marker are ignored. -/
theorem linter_ignores_leading_verdicts_witness :
    (∀ l ∈ ["junk    Pass", "junk    Fail"],
        endswith (rstrip l) "    Pass" = true ∨
        endswith (rstrip l) "    Fail" = true) ∧
    ((parse_linter_results
        (["junk    Pass", "junk    Fail"] ++
          ["a.py", "foo    Pass", "b.py", "bar    Fail"])).total,
     (parse_linter_results
        (["junk    Pass", "junk    Fail"] ++
          ["a.py", "foo    Pass", "b.py", "bar    Fail"])).passed,
     (parse_linter_results
        (["junk    Pass", "junk    Fail"] ++
          ["a.py", "foo    Pass", "b.py", "bar    Fail"])).failed,
     (parse_linter_results
        (["junk    Pass", "junk    Fail"] ++
          ["a.py", "foo    Pass", "b.py", "bar    Fail"])).files) =
    (2, 1, 1, [("a.py", true), ("b.py", false)]) :=
  ⟨by decide, linter_ignores_leading_verdicts ["junk    Pass", "junk    Fail"] (by decide)⟩

/-- Claim C6: when the two counts sum to zero, `percentage` returns the
string `"0"` instead of dividing by zero. -/
theorem percentage_zero_guard (part1 part2 : ℕ) (h : part1 + part2 = 0) :
    percentage part1 part2 = "0" := by
  unfold percentage
  dsimp only
  rw [if_pos h]

/-- Claim C6, witness at (0, 0). -/
theorem percentage_zero_guard_witness :
    (0 : ℕ) + 0 = 0 ∧ percentage 0 0 = "0" :=
  ⟨rfl, percentage_zero_guard 0 0 rfl⟩

/-- Claim C7: for a positive total, the integer values carried by the
strings `percentage p f` and `percentage f p` sum to 100 up to a
rounding tolerance of one. -/
theorem percentage_complement_sum (p f : ℕ) (h : 0 < p + f) :
    ∃ a b : ℕ,
      percentage p f = Nat.repr a ∧ percentage f p = Nat.repr b ∧
      99 ≤ a + b ∧ a + b ≤ 101 := by
  refine ⟨roundHalfToEven (100 * f) (p + f), roundHalfToEven (100 * p) (f + p),
    ?_, ?_, ?_, ?_⟩
  · unfold percentage
    dsimp only
    rw [if_neg (by omega)]
  · unfold percentage
    dsimp only
    rw [if_neg (by omega)]
  · obtain ⟨ha1, ha2⟩ := roundHalfToEven_bounds (100 * f) (p + f) h
    obtain ⟨hb1, hb2⟩ := roundHalfToEven_bounds (100 * p) (f + p) (by omega)
    have key : (2 * (p + f)) * 100 ≤
        (2 * (p + f)) * (roundHalfToEven (100 * f) (p + f) +
          roundHalfToEven (100 * p) (f + p) + 1) := by
      nlinarith
    have := Nat.le_of_mul_le_mul_left key (by omega)
    omega
  · obtain ⟨ha1, ha2⟩ := roundHalfToEven_bounds (100 * f) (p + f) h
    obtain ⟨hb1, hb2⟩ := roundHalfToEven_bounds (100 * p) (f + p) (by omega)
    have key : (2 * (p + f)) * (roundHalfToEven (100 * f) (p + f) +
        roundHalfToEven (100 * p) (f + p)) ≤ (2 * (p + f)) * 101 := by
      nlinarith
    exact Nat.le_of_mul_le_mul_left key (by omega)

/-- Claim C7, witness at p = 1, f = 1. -/
theorem percentage_complement_sum_witness :
    0 < 1 + 1 ∧
    ∃ a b : ℕ,
      percentage 1 1 = Nat.repr a ∧ percentage 1 1 = Nat.repr b ∧
      99 ≤ a + b ∧ a + b ≤ 101 :=
  ⟨by decide, percentage_complement_sum 1 1 (by decide)⟩

/-- Claim C8: `progress_bar_class` returns the danger class below 10,
the success class above 90, the warning class in between, and at the
boundaries 9 maps to danger, 10 and 90 to warning, 91 to success. -/
theorem progress_bar_class_buckets :
    (∀ p : ℤ, p < 10 → progress_bar_class p = "progress-bar-danger") ∧
    (∀ p : ℤ, 90 < p → progress_bar_class p = "progress-bar-success") ∧
    (∀ p : ℤ, 10 ≤ p → p ≤ 90 → progress_bar_class p = "progress-bar-warning") ∧
    progress_bar_class 9 = "progress-bar-danger" ∧
    progress_bar_class 10 = "progress-bar-warning" ∧
    progress_bar_class 90 = "progress-bar-warning" ∧
    progress_bar_class 91 = "progress-bar-success" := by
  refine ⟨?_, ?_, ?_, by decide, by decide, by decide, by decide⟩
  · intro p hp
    unfold progress_bar_class
    rw [if_pos hp]
  · intro p hp
    unfold progress_bar_class
    rw [if_neg (by omega), if_pos hp]
  · intro p h1 h2
    unfold progress_bar_class
    rw [if_neg (by omega), if_neg (by omega)]

/-- Claim C9: `jobs_as_dict` silently drops every descriptor lacking a
status color, over any raw collection: removing all colorless
descriptors first never changes the result, so such descriptors
contribute neither an entry nor an error; in particular, for j1 with
color blue and j2 without a color the mapping contains exactly the
single entry from j1 to blue. -/
theorem jobs_as_dict_drops_colorless :
    (∀ jobs : List RawJob,
        jobs_as_dict jobs =
          jobs_as_dict (jobs.filter (fun j => j.color.isSome))) ∧
    jobs_as_dict [{ name := some "j1", color := some "blue" },
                  { name := some "j2", color := none }] =
      Except.ok [("j1", "blue")] :=
  ⟨fun jobs => jobsAsDictAux_filter jobs [], rfl⟩

/-- Claim C10: a descriptor that carries a color but lacks a name makes
`jobs_as_dict` raise `KeyError` instead of being dropped: the silent
filtering only covers descriptors without a status. -/
theorem jobs_as_dict_missing_name_keyerror (jobs : List RawJob)
    (h : ∃ j ∈ jobs, j.name = none ∧ j.color.isSome = true) :
    jobs_as_dict jobs = Except.error "KeyError: name" :=
  jobsAsDictAux_error jobs h []

/-- Claim C10, witness: a single nameless descriptor with a color. -/
theorem jobs_as_dict_missing_name_keyerror_witness :
    (∃ j ∈ [RawJob.mk none (some "blue")],
        j.name = none ∧ j.color.isSome = true) ∧
    jobs_as_dict [RawJob.mk none (some "blue")] = Except.error "KeyError: name" :=
  ⟨by decide, jobs_as_dict_missing_name_keyerror [RawJob.mk none (some "blue")] (by decide)⟩
